import Mathlib

/-!
Verification of `compressure/main.py`.

A shallow embedding of the parts of `compressure/main.py` needed to settle the
frozen claims about the reversible slice sequencer
(`VideoSliceBufferReversible`), the timeline generator
(`generate_timeline_function`), the encoder-config builder
(`construct_encoder_config`) and the get-or-create cache wrappers
(`CompressureSystem.compress` / `CompressureSystem.slice`).

Conventions of the embedding:
* Python `int` is `ℤ`; Python float arithmetic on velocities is modelled
  exactly with `ℚ` (the quantities involved are small dyadic/sextic
  rationals); `int(x)` is `pyInt` (truncation toward zero).
* Python exceptions are the `PyErr` inductive; fallible operations return
  `Except PyErr _`.  Reading `deque[0]` from an empty deque is `indexError`;
  reading a never-assigned attribute is `attributeError`.
* `collections.deque` is `List`; `deque.rotate(m)` is `dequeRotate l m`
  (right rotation by `m`, i.e. `rotate(-n)` moves the head `n` slots forward).
* Mutation of `self` is explicit state passing: a method returns the updated
  object (together with its Python return value when it has one).
-/

set_option autoImplicit false

namespace Compressure

/-- Python exceptions that the embedded code can raise.  The two
`…WaveformError` / `…LengthMismatchError` names used by the specification are
included as constructors so that statements can compare the exception the code
actually raises against the one the specification names. -/
inductive PyErr where
  | attributeError
  | indexError
  | notImplementedError
  | unsupportedWaveformError
  | sequencerLengthMismatchError
  | encoderSelectionError
  | malformedConfigurationError
  | unrecognizedEncoderConfigError
  deriving DecidableEq, Repr

/-- Python `int(x)`: truncation toward zero. -/
def pyInt (q : ℚ) : ℤ :=
  if q < 0 then -⌊-q⌋ else ⌊q⌋

/-- Python `deque.rotate(m)`: right rotation by `m` (negative `m` rotates left).
`List.rotate` is a left rotation, so `rotate(m)` is `List.rotate` by
`(-m) mod length`. -/
def dequeRotate {α : Type} (l : List α) (m : ℤ) : List α :=
  l.rotate (((-m) % (l.length : ℤ)).toNat)

/-- The two fields of a `VideoSlicer` that `VideoSliceBufferReversible.__init__`
reads: the ordered slice list and the superframe size. -/
structure VideoSlicer (α : Type) where
  slices : List α
  superframe_size : ℤ
  deriving DecidableEq, Repr

/-- The state of `VideoSliceBufferReversible` exactly as `__init__` builds it.
Note that the class never assigns a `superframe_size` attribute: only
`_velocity_numerator` and `_velocity_denominator` record the superframe size. -/
structure VideoSliceBufferReversible (α : Type) where
  buffer_forward : List α
  buffer_backward : List α
  forward : Bool
  index : ℤ
  _velocity_numerator : ℤ
  _velocity_denominator : ℤ
  deriving DecidableEq, Repr

namespace VideoSliceBufferReversible

variable {α : Type}

/-- Constructor `__init__(self, slicer_forward, slicer_backward)` (main.py lines 101-110):
forward slices as given, backward slices reversed (`slices[::-1]`), direction
forward, index 0, velocity stored as the rational
`superframe_size / superframe_size` taken from the forward slicer (both times).
There is no validation of any kind — in particular no length comparison. -/
def init (slicer_forward slicer_backward : VideoSlicer α) :
    VideoSliceBufferReversible α where
  buffer_forward := slicer_forward.slices
  buffer_backward := slicer_backward.slices.reverse
  forward := true
  index := 0
  _velocity_numerator := slicer_forward.superframe_size
  _velocity_denominator := slicer_forward.superframe_size

/-- The `state` property (main.py lines 112-114): the head of the buffer
selected by the `forward` flag alone.  `deque[0]` on an empty deque would be an
`IndexError`; `head?` returns `none` there. -/
def state (b : VideoSliceBufferReversible α) : Option α :=
  if b.forward then b.buffer_forward.head? else b.buffer_backward.head?

/-- The `velocity` property getter (main.py lines 116-118):
`_velocity_numerator / _velocity_denominator` (Python float division,
modelled exactly on `ℚ`). -/
def velocity (b : VideoSliceBufferReversible α) : ℚ :=
  (b._velocity_numerator : ℚ) / (b._velocity_denominator : ℚ)

/-- The `velocity` property setter (main.py lines 120-124): first the
direction flag is recomputed from the OLD velocity (`≥ 0` when currently
forward, `> 0` when currently backward), then the new velocity is stored as
`int(velocity * self._velocity_denominator)`. -/
def setVelocity (b : VideoSliceBufferReversible α) (v : ℚ) :
    VideoSliceBufferReversible α :=
  { b with
    forward := if b.forward then decide (0 ≤ b.velocity) else decide (0 < b.velocity)
    _velocity_numerator := pyInt (v * (b._velocity_denominator : ℚ)) }

/-- Attribute lookup `self.superframe_size` (main.py lines 139 and 161).
`__init__` never assigns this attribute (it only sets `_velocity_numerator`
and `_velocity_denominator`), and nothing else does, so the lookup raises
`AttributeError` on every instance. -/
def superframe_sizeAttr (_b : VideoSliceBufferReversible α) : Except PyErr ℤ :=
  .error .attributeError

/-- The head selection at the end of `step` (main.py lines 152-155): the
asymmetric `≥` / `>` tie-break between the direction flag and the velocity.
(This is NOT the `state` property, which ignores the velocity.) -/
def chooseHead (b : VideoSliceBufferReversible α) : Option α :=
  if b.forward then
    (if 0 ≤ b.velocity then b.buffer_forward.head? else b.buffer_backward.head?)
  else
    (if 0 < b.velocity then b.buffer_forward.head? else b.buffer_backward.head?)

/-- The mutations of `step` (main.py lines 141-151): rotate both deques by
`-n_moves` and add `n_moves` to `index`. -/
def rotatedBy (b : VideoSliceBufferReversible α) (n_moves : ℤ) :
    VideoSliceBufferReversible α :=
  { b with
    buffer_forward := dequeRotate b.buffer_forward (-n_moves)
    buffer_backward := dequeRotate b.buffer_backward (-n_moves)
    index := b.index + n_moves }

/-- The tail of `step` shared by both modes (main.py lines 141-156): rotate
both deques by `-n_moves`, add `n_moves` to `index`, and return the head
chosen by the asymmetric direction/velocity tie-break. -/
def stepTail (b : VideoSliceBufferReversible α) (n_moves : ℤ) :
    Except PyErr (VideoSliceBufferReversible α × α) :=
  match chooseHead (b.rotatedBy n_moves) with
  | some s => .ok (b.rotatedBy n_moves, s)
  | none => .error .indexError

/-- Method `step(self, to=None)` (main.py lines 126-156).  With a target, the
velocity is set to the sign of `to - index` through the `velocity` setter and
the displacement is the raw delta.  Without a target, the displacement is
`int(self.superframe_size * self.velocity)` — but `self.superframe_size` is
never assigned, so this branch raises `AttributeError` before touching any
state. -/
def step (b : VideoSliceBufferReversible α) (to_ : Option ℤ) :
    Except PyErr (VideoSliceBufferReversible α × α) :=
  match to_ with
  | some t =>
      let n_moves := t - b.index
      let b' :=
        if n_moves < 0 then b.setVelocity (-1)
        else if 0 < n_moves then b.setVelocity 1
        else b.setVelocity 0
      stepTail b' n_moves
  | none =>
      match b.superframe_sizeAttr with
      | .error e => .error e
      | .ok sfs => stepTail b (pyInt ((sfs : ℚ) * b.velocity))

/-- Method `accelerate(self, degree=1)` (main.py lines 158-162):
`self.velocity = self.velocity + degree / self.superframe_size` followed by a
velocity-driven `step()`.  Reading `self.superframe_size` raises
`AttributeError` first. -/
def accelerate (b : VideoSliceBufferReversible α) (degree : ℚ) :
    Except PyErr (VideoSliceBufferReversible α × α) :=
  match b.superframe_sizeAttr with
  | .error e => .error e
  | .ok sfs =>
      (b.setVelocity (b.velocity + degree / (sfs : ℚ))).step none

/-- Method `__len__` (main.py lines 164-165). -/
def length (b : VideoSliceBufferReversible α) : ℕ :=
  b.buffer_forward.length

end VideoSliceBufferReversible

/-- Function `generate_timeline_function` (main.py lines 275-291).  The numpy pipeline
`np.sin(np.linspace(0, 2*np.pi*frequency, n_superframes))` is abstracted as a
sample sequence `s : ℕ → ℚ` (`s i` is the `i`-th sine sample); the theorems
about this function assume only `|s i| ≤ 1`, which holds for any sine
implementation.  The rest follows the source exactly: scale by `len_lvb - 1`
(`"sinusoid"`) or `len_lvb` (`"compound-sinusoid"`), mirror negative entries
to their negation (`locations[locations < 0] = -locations[locations < 0]`),
truncate with `astype(int)` (toward zero), and raise `NotImplementedError`
for any other category.  `superframe_size` and `frequency` are unused by the
source body (frequency only shapes the samples, which are abstracted into
`s`). -/
def generate_timeline_function (_superframe_size len_lvb : ℤ) (n_superframes : ℕ)
    (category : String) (_frequency : ℚ) (s : ℕ → ℚ) : Except PyErr (List ℤ) :=
  if category = "sinusoid" then
    .ok ((List.range n_superframes).map (fun i =>
      let x := s i * ((len_lvb : ℚ) - 1)
      pyInt (if x < 0 then -x else x)))
  else if category = "compound-sinusoid" then
    .ok ((List.range n_superframes).map (fun i =>
      let x := s i * (len_lvb : ℚ)
      pyInt (if x < 0 then -x else x)))
  else
    .error .notImplementedError

/-- Python `dict.get(k)` on an association list (first binding wins, as a
Python dict has at most one binding per key). -/
def dictGet {β : Type} (d : List (String × β)) (k : String) : Option β :=
  (d.find? (fun p => p.1 == k)).map (·.2)

/-- Python `d[k] = v` on an association list: replace the first binding of
`k`, or append a fresh binding when `k` is absent. -/
def dictSet {β : Type} (d : List (String × β)) (k : String) (v : β) :
    List (String × β) :=
  match d with
  | [] => [(k, v)]
  | p :: rest => if p.1 == k then (k, v) :: rest else p :: dictSet rest k v

/-- The loop of `construct_encoder_config` (main.py lines 300-311), iterating
over the flat `key value key value …` list two entries at a time.  The state
is threaded so that updates applied before an error survive it, exactly as the
Python dict mutations do: a trailing unpaired key is the `IndexError` on
`user_specified_config[i + 1]` re-raised as `MalformedConfigurationError`, and
a key absent from the encoder's option mapping raises
`UnrecognizedEncoderConfigError`. -/
def applyConfigPairs (encoder_config : List (String × String)) :
    List String → List (String × String) × Option PyErr
  | [] => (encoder_config, none)
  | [_] => (encoder_config, some .malformedConfigurationError)
  | key :: value :: rest =>
      if (dictGet encoder_config key).isSome then
        applyConfigPairs (dictSet encoder_config key value) rest
      else
        (encoder_config, some .unrecognizedEncoderConfigError)

/-- The `key value` pairs of a flat override list (a trailing unpaired key is
dropped; `applyConfigPairs` errors on it instead).  Used only to state what a
successful `construct_encoder_config` call computes. -/
def overridePairs : List String → List (String × String)
  | [] => []
  | [_] => []
  | key :: value :: rest => (key, value) :: overridePairs rest

/-- Function `construct_encoder_config(encoder, user_specified_config)`
(main.py lines 294-312).  The mutable
`VideoCompressionDefaults.encoder_config_options` table is passed explicitly
as `options` and returned updated.  The source binds
`encoder_config = VideoCompressionDefaults.encoder_config_options[encoder]`
WITHOUT copying, so every `encoder_config[key] = value` mutates the shared
default table: the embedding returns the table with the encoder's entry
replaced by the mutated mapping (also on an error part-way through the loop,
as the already-performed dict mutations survive the raised exception). -/
def construct_encoder_config
    (options : List (String × List (String × String)))
    (encoder : String) (user_specified_config : List String) :
    Except PyErr (List (String × String)) × List (String × List (String × String)) :=
  match dictGet options encoder with
  | none => (.error .encoderSelectionError, options)
  | some encoder_config =>
      let r := applyConfigPairs encoder_config user_specified_config
      let options' := dictSet options encoder r.1
      match r.2 with
      | none => (.ok r.1, options')
      | some e => (.error e, options')

/-! ### The persistence cache (spec-modelled)

`CompressureSystem.compress` and `CompressureSystem.slice`
(main.py lines 41-72 and 80-93) are in the source, but the
`CompressurePersistence` store they call (`get_compression`/`add_compression`,
`get_slices`/`add_slices`), and the producers `transcode_video`/`slice_video`,
live in modules outside this repository snapshot.  Those parts are modelled
from the spec (§3 Manifest, §4.1 Fingerprint, §4.2 Manifest Store, §4.3
Persistence Cache): the manifest is a list of fingerprint-keyed records,
`lookup` returns the first record with the given fingerprint (absence is
`none`, not an error), `append` adds the record, and the fingerprint is
deterministic and collision-free on effect-bearing fields — modelled as the
configuration value itself.  The producers are opaque deterministic functions
passed as parameters. -/

/-- The configuration fields of `SingleVideoCompression` that `compress`
forwards (main.py lines 41-54); per spec §4.1 they are exactly the
effect-bearing fields of a transcode fingerprint. -/
structure SingleVideoCompression where
  fpath_in : String
  gop_size : ℤ
  encoder : String
  encoder_config : List (String × String)
  deriving DecidableEq, Repr

/-- Modelled from the spec: an `ArtifactRecord` for a transcode (§3) — the
output path of the transcoded video. -/
structure CompressionRecord where
  fpath_out : String
  deriving DecidableEq, Repr

/-- Modelled from the spec: the manifest of artifact records (§3), keyed by
fingerprint; the fingerprint of a configuration is modelled as the
configuration itself (deterministic and injective on effect-bearing fields,
§4.1).  Slice records are keyed by source fingerprint plus superframe size. -/
structure Manifest where
  compressions : List (SingleVideoCompression × CompressionRecord)
  slicings : List ((SingleVideoCompression × ℤ) × List String)
  deriving DecidableEq, Repr

/-- Modelled from the spec: `CompressurePersistence.get_compression` — the
Manifest Store `lookup` (§4.2): first record with this fingerprint, `none`
when unknown. -/
def get_compression (m : Manifest) (c : SingleVideoCompression) :
    Option CompressionRecord :=
  (m.compressions.find? (fun p => decide (p.1 = c))).map (·.2)

/-- Modelled from the spec: `CompressurePersistence.add_compression` — the
Manifest Store `append` (§4.2). -/
def add_compression (m : Manifest) (c : SingleVideoCompression)
    (r : CompressionRecord) : Manifest :=
  { m with compressions := m.compressions ++ [(c, r)] }

/-- Modelled from the spec: `CompressurePersistence.get_slices`. -/
def get_slices (m : Manifest) (c : SingleVideoCompression) (superframe_size : ℤ) :
    Option (List String) :=
  (m.slicings.find? (fun p => decide (p.1 = (c, superframe_size)))).map (·.2)

/-- Modelled from the spec: `CompressurePersistence.add_slices`. -/
def add_slices (m : Manifest) (c : SingleVideoCompression) (superframe_size : ℤ)
    (slices : List String) : Manifest :=
  { m with slicings := m.slicings ++ [((c, superframe_size), slices)] }

/-- Method `CompressureSystem.compress` (main.py lines 41-72): look the configuration
up in persistence; on a miss run `transcode_video` (the opaque deterministic
producer `transcode`, spec §6) and append the record.  The third component
counts how often the producer was invoked by this call (0 on a hit, 1 on a
miss); it is bookkeeping for the statements, not program state. -/
def compress (transcode : SingleVideoCompression → CompressionRecord)
    (m : Manifest) (c : SingleVideoCompression) :
    CompressionRecord × Manifest × ℕ :=
  match get_compression m c with
  | some cached => (cached, m, 0)
  | none =>
      let r := transcode c
      (r, add_compression m c r, 1)

/-- Method `CompressureSystem.slice` (main.py lines 80-93): look the
(configuration, superframe size) pair up in persistence; on a miss run
`slice_video` (the opaque deterministic producer `sliceVideo`, spec §6) and
append the slice record.  Third component as in `compress`. -/
def sliceCached (sliceVideo : SingleVideoCompression → ℤ → List String)
    (m : Manifest) (c : SingleVideoCompression) (superframe_size : ℤ) :
    List String × Manifest × ℕ :=
  match get_slices m c superframe_size with
  | some cached => (cached, m, 0)
  | none =>
      let r := sliceVideo c superframe_size
      (r, add_slices m c superframe_size r, 1)

deriving instance DecidableEq for Except

/-! ### Helper lemmas -/

theorem pyInt_intCast (k : ℤ) : pyInt (k : ℚ) = k := by
  unfold pyInt
  split
  · rw [← Int.cast_neg, Int.floor_intCast, neg_neg]
  · exact Int.floor_intCast k

theorem pyInt_of_nonneg {q : ℚ} (h : 0 ≤ q) : pyInt q = ⌊q⌋ := by
  unfold pyInt
  rw [if_neg (not_lt.mpr h)]

/-- Bounds for truncation of a nonnegative rational below an integer bound. -/
theorem pyInt_nonneg_le {q : ℚ} {k : ℤ} (h0 : 0 ≤ q) (hk : q ≤ (k : ℚ)) :
    0 ≤ pyInt q ∧ pyInt q ≤ k := by
  rw [pyInt_of_nonneg h0]
  constructor
  · exact Int.floor_nonneg.mpr h0
  · calc ⌊q⌋ ≤ ⌊(k : ℚ)⌋ := Int.floor_le_floor hk
      _ = k := Int.floor_intCast k

theorem dequeRotate_ne_nil {α : Type} {l : List α} (h : l ≠ []) (m : ℤ) :
    dequeRotate l m ≠ [] := by
  unfold dequeRotate
  intro hc
  exact h (List.eq_nil_of_length_eq_zero (by
    simpa [List.length_rotate] using congrArg List.length hc))

theorem dequeRotate_length {α : Type} (l : List α) (m : ℤ) :
    (dequeRotate l m).length = l.length := by
  unfold dequeRotate
  exact List.length_rotate l _

namespace VideoSliceBufferReversible

variable {α : Type}

theorem velocity_of_fields (b : VideoSliceBufferReversible α) :
    b.velocity = (b._velocity_numerator : ℚ) / (b._velocity_denominator : ℚ) := rfl

/-- When the stored numerator is `k * denominator` with a positive denominator,
the velocity is exactly `k`. -/
theorem velocity_eq_int (b : VideoSliceBufferReversible α) (k : ℤ)
    (hn : b._velocity_numerator = k * b._velocity_denominator)
    (hd : 0 < b._velocity_denominator) : b.velocity = (k : ℚ) := by
  have hd' : ((b._velocity_denominator : ℤ) : ℚ) ≠ 0 := by
    exact_mod_cast hd.ne'
  rw [velocity_of_fields, hn]
  push_cast
  field_simp

theorem chooseHead_of_pos (b : VideoSliceBufferReversible α) (h : 0 < b.velocity) :
    b.chooseHead = b.buffer_forward.head? := by
  unfold chooseHead
  rcases hb : b.forward <;> simp [h, h.le]

theorem chooseHead_of_neg (b : VideoSliceBufferReversible α) (h : b.velocity < 0) :
    b.chooseHead = b.buffer_backward.head? := by
  unfold chooseHead
  rcases hb : b.forward <;> simp [not_le.mpr h, not_lt.mpr h.le]

theorem chooseHead_of_zero (b : VideoSliceBufferReversible α) (h : b.velocity = 0) :
    b.chooseHead = if b.forward then b.buffer_forward.head? else b.buffer_backward.head? := by
  unfold chooseHead
  rcases hb : b.forward <;> simp [h]

/-- The tie-break as the specification phrases it: the forward head is chosen
exactly when (Forward ∧ velocity ≥ 0) ∨ (Backward ∧ velocity > 0). -/
theorem chooseHead_cases (b : VideoSliceBufferReversible α) :
    (((b.forward = true ∧ 0 ≤ b.velocity) ∨ (b.forward = false ∧ 0 < b.velocity)) →
        b.chooseHead = b.buffer_forward.head?) ∧
    (¬((b.forward = true ∧ 0 ≤ b.velocity) ∨ (b.forward = false ∧ 0 < b.velocity)) →
        b.chooseHead = b.buffer_backward.head?) := by
  rcases hf : b.forward
  · constructor <;> intro h
    · rcases h with ⟨h1, _⟩ | ⟨_, h2⟩
      · cases h1
      · simp [chooseHead, hf, h2]
    · have hv : ¬ 0 < b.velocity := fun hc => h (Or.inr ⟨rfl, hc⟩)
      simp [chooseHead, hf, hv]
  · constructor <;> intro h
    · rcases h with ⟨_, h2⟩ | ⟨h1, _⟩
      · simp [chooseHead, hf, h2]
      · cases h1
    · have hv : ¬ 0 ≤ b.velocity := fun hc => h (Or.inl ⟨rfl, hc⟩)
      simp [chooseHead, hf, hv]

/-- Both rotations leave the direction flag, the velocity and the buffer
lengths unchanged. -/
theorem rotatedBy_fields (b : VideoSliceBufferReversible α) (n : ℤ) :
    (b.rotatedBy n).forward = b.forward ∧
    (b.rotatedBy n).velocity = b.velocity ∧
    (b.rotatedBy n).index = b.index + n ∧
    (b.rotatedBy n).buffer_forward = dequeRotate b.buffer_forward (-n) ∧
    (b.rotatedBy n).buffer_backward = dequeRotate b.buffer_backward (-n) :=
  ⟨rfl, rfl, rfl, rfl, rfl⟩

/-- Inversion for a successful `stepTail`: the resulting object is the rotated
record and the returned value is the tie-break head of that record. -/
theorem stepTail_ok_inv (b b' : VideoSliceBufferReversible α) (n : ℤ) (s : α)
    (h : b.stepTail n = .ok (b', s)) :
    b' = b.rotatedBy n ∧ b'.chooseHead = some s := by
  unfold stepTail at h
  split at h
  · rename_i s₀ hc
    injection h with h'
    injection h' with h₁ h₂
    subst h₁ h₂
    exact ⟨rfl, hc⟩
  · cases h

/-- The setter `setVelocity` touches only the direction flag and the stored numerator. -/
theorem setVelocity_fields (b : VideoSliceBufferReversible α) (v : ℚ) :
    (b.setVelocity v).buffer_forward = b.buffer_forward ∧
    (b.setVelocity v).buffer_backward = b.buffer_backward ∧
    (b.setVelocity v).index = b.index ∧
    (b.setVelocity v)._velocity_denominator = b._velocity_denominator ∧
    (b.setVelocity v)._velocity_numerator = pyInt (v * (b._velocity_denominator : ℚ)) :=
  ⟨rfl, rfl, rfl, rfl, rfl⟩

/-- Setting an integer velocity stores it exactly (the `int(...)` truncation
is the identity on `k * denominator`). -/
theorem setVelocity_velocity_int (b : VideoSliceBufferReversible α) (k : ℤ)
    (hd : 0 < b._velocity_denominator) :
    (b.setVelocity (k : ℚ)).velocity = (k : ℚ) := by
  refine velocity_eq_int _ k ?_ hd
  show pyInt ((k : ℚ) * (b._velocity_denominator : ℚ)) = k * b._velocity_denominator
  have hcast : (k : ℚ) * (b._velocity_denominator : ℚ) =
      ((k * b._velocity_denominator : ℤ) : ℚ) := by push_cast; ring
  rw [hcast, pyInt_intCast]

/-- A successful `stepTail` exists whenever both buffers are nonempty. -/
theorem stepTail_total (b : VideoSliceBufferReversible α) (n : ℤ)
    (hf : b.buffer_forward ≠ []) (hb : b.buffer_backward ≠ []) :
    ∃ s, b.stepTail n = .ok (b.rotatedBy n, s) := by
  have hf' : (b.rotatedBy n).buffer_forward ≠ [] := dequeRotate_ne_nil hf (-n)
  have hb' : (b.rotatedBy n).buffer_backward ≠ [] := dequeRotate_ne_nil hb (-n)
  have hsome : (b.rotatedBy n).chooseHead ≠ none := by
    unfold chooseHead
    split
    · split <;> simp [List.head?_eq_none_iff, hf', hb']
    · split <;> simp [List.head?_eq_none_iff, hf', hb']
  rcases hc : (b.rotatedBy n).chooseHead with _ | s₀
  · exact absurd hc hsome
  · refine ⟨s₀, ?_⟩
    unfold stepTail
    rw [hc]

end VideoSliceBufferReversible

open VideoSliceBufferReversible

/-! ### Claims -/

/-- C1 (failing-input evidence): on the specification's scenario — a sequencer
built with superframe size 6, hence velocity 1.0 and cursor 0 —
`accelerate(degree=1)` does not set the velocity to 7/6 and advance the cursor
to 7: it raises `AttributeError`, because both `accelerate` and the
velocity-driven `step` read `self.superframe_size`, an attribute `__init__`
never assigns. -/
theorem c1_accelerate_attribute_error :
    (init (α := ℕ) ⟨List.range 40, 6⟩ ⟨List.range 40, 6⟩).velocity = 1 ∧
    (init (α := ℕ) ⟨List.range 40, 6⟩ ⟨List.range 40, 6⟩).index = 0 ∧
    (init (α := ℕ) ⟨List.range 40, 6⟩ ⟨List.range 40, 6⟩).accelerate 1 =
      .error .attributeError := by
  refine ⟨?_, rfl, rfl⟩
  simpa using velocity_eq_int
    (init (α := ℕ) ⟨List.range 40, 6⟩ ⟨List.range 40, 6⟩) 1 (by decide) (by decide)

/-- C2 (counterexample): constructing the sequencer from slice sets of lengths
40 and 42 does NOT fail with `SequencerLengthMismatchError` — `__init__`
contains no length comparison at all — and the full sequencer state is built
from the mismatched inputs. -/
theorem c2_counterexample_mismatched_lengths_accepted :
    (init (α := ℕ) ⟨List.range 40, 6⟩ ⟨List.range 42, 6⟩).buffer_forward.length = 40 ∧
    (init (α := ℕ) ⟨List.range 40, 6⟩ ⟨List.range 42, 6⟩).buffer_backward.length = 42 ∧
    (init (α := ℕ) ⟨List.range 40, 6⟩ ⟨List.range 42, 6⟩).forward = true ∧
    (init (α := ℕ) ⟨List.range 40, 6⟩ ⟨List.range 42, 6⟩).index = 0 := by
  refine ⟨?_, ?_, rfl, rfl⟩ <;> decide

/-- C2 (amended): construction performs no validation: for every pair of slice
sets, of equal or differing lengths, it succeeds and builds the full state —
the forward slices as given, the backward slices reversed, direction Forward,
cursor 0 — and no `SequencerLengthMismatchError` exists in this code. -/
theorem c2_amended_init_unconditional {α : Type}
    (slicer_forward slicer_backward : VideoSlicer α) :
    (init slicer_forward slicer_backward).buffer_forward = slicer_forward.slices ∧
    (init slicer_forward slicer_backward).buffer_backward = slicer_backward.slices.reverse ∧
    (init slicer_forward slicer_backward).forward = true ∧
    (init slicer_forward slicer_backward).index = 0 :=
  ⟨rfl, rfl, rfl, rfl⟩

/-- C5: `set_velocity` computes the new direction flag from the PREVIOUS
velocity relative to the PREVIOUS direction — Forward iff old velocity ≥ 0
when currently Forward, iff old velocity > 0 when currently Backward —
independently of the value being assigned (single-step hysteresis), and only
then stores the new velocity (as numerator `int(v * denominator)` over the
unchanged denominator). -/
theorem c5_set_velocity_hysteresis {α : Type} (b : VideoSliceBufferReversible α)
    (v w : ℚ) :
    ((b.setVelocity v).forward = (b.setVelocity w).forward) ∧
    ((b.setVelocity v).forward = true ↔
      (b.forward = true ∧ 0 ≤ b.velocity) ∨ (b.forward = false ∧ 0 < b.velocity)) ∧
    ((b.setVelocity v)._velocity_numerator = pyInt (v * (b._velocity_denominator : ℚ))) ∧
    ((b.setVelocity v)._velocity_denominator = b._velocity_denominator) := by
  refine ⟨rfl, ?_, rfl, rfl⟩
  rcases hf : b.forward <;> simp [setVelocity, hf]

/-- C9 (failing-input evidence): immediately after construction from two slice
sets the direction is Forward, the cursor is 0, the velocity is exactly 1
(stored as superframe_size/superframe_size from the forward slicer), and the
visible head is the first forward slice — but an initial velocity-driven
`step()` does not advance by one superframe: it raises `AttributeError`
because `self.superframe_size` is never assigned. -/
theorem c9_initial_state {α : Type} (slicer_forward slicer_backward : VideoSlicer α)
    (hsfs : 0 < slicer_forward.superframe_size) :
    (init slicer_forward slicer_backward).forward = true ∧
    (init slicer_forward slicer_backward).index = 0 ∧
    (init slicer_forward slicer_backward).velocity = 1 ∧
    (init slicer_forward slicer_backward)._velocity_numerator
      = slicer_forward.superframe_size ∧
    (init slicer_forward slicer_backward)._velocity_denominator
      = slicer_forward.superframe_size ∧
    (init slicer_forward slicer_backward).state = slicer_forward.slices.head? ∧
    (init slicer_forward slicer_backward).step none = .error .attributeError := by
  refine ⟨rfl, rfl, ?_, rfl, rfl, rfl, rfl⟩
  simpa using velocity_eq_int (init slicer_forward slicer_backward) 1
    (show slicer_forward.superframe_size = 1 * slicer_forward.superframe_size from
      (one_mul _).symm) hsfs

/-- C4: a target-directed `step(to = j)` from cursor `i` sets the velocity to
the bare sign of `j - i` (−1, +1 or 0, discarding the magnitude), rotates both
queues by `-(j - i)` raw positions (not scaled by the superframe size), and
lands the cursor exactly on `j`. -/
theorem c4_target_step_exact {α : Type} (b : VideoSliceBufferReversible α) (j : ℤ)
    (hd : 0 < b._velocity_denominator)
    (hf : b.buffer_forward ≠ []) (hb : b.buffer_backward ≠ []) :
    ∃ b' s, b.step (some j) = .ok (b', s) ∧
      b'.index = j ∧
      b'.velocity = (if j < b.index then (-1 : ℚ) else if b.index < j then 1 else 0) ∧
      b'.buffer_forward = dequeRotate b.buffer_forward (-(j - b.index)) ∧
      b'.buffer_backward = dequeRotate b.buffer_backward (-(j - b.index)) := by
  have hstep0 : b.step (some j) =
      (if j - b.index < 0 then b.setVelocity (-1)
       else if 0 < j - b.index then b.setVelocity 1
       else b.setVelocity 0).stepTail (j - b.index) := rfl
  rcases lt_trichotomy j b.index with hj | hj | hj
  · have hneg : j - b.index < 0 := by omega
    obtain ⟨s, hs⟩ := stepTail_total (b.setVelocity (-1)) (j - b.index) hf hb
    refine ⟨(b.setVelocity (-1)).rotatedBy (j - b.index), s, ?_, ?_, ?_, rfl, rfl⟩
    · rw [hstep0, if_pos hneg]
      exact hs
    · show b.index + (j - b.index) = j
      omega
    · show (b.setVelocity (-1)).velocity = _
      rw [if_pos hj]
      simpa using setVelocity_velocity_int b (-1) hd
  · have h1 : ¬ j - b.index < 0 := by omega
    have h2 : ¬ 0 < j - b.index := by omega
    obtain ⟨s, hs⟩ := stepTail_total (b.setVelocity 0) (j - b.index) hf hb
    refine ⟨(b.setVelocity 0).rotatedBy (j - b.index), s, ?_, ?_, ?_, rfl, rfl⟩
    · rw [hstep0, if_neg h1, if_neg h2]
      exact hs
    · show b.index + (j - b.index) = j
      omega
    · show (b.setVelocity 0).velocity = _
      rw [if_neg (by omega : ¬ j < b.index), if_neg (by omega : ¬ b.index < j)]
      simpa using setVelocity_velocity_int b 0 hd
  · have h1 : ¬ j - b.index < 0 := by omega
    have h2 : 0 < j - b.index := by omega
    obtain ⟨s, hs⟩ := stepTail_total (b.setVelocity 1) (j - b.index) hf hb
    refine ⟨(b.setVelocity 1).rotatedBy (j - b.index), s, ?_, ?_, ?_, rfl, rfl⟩
    · rw [hstep0, if_neg h1, if_pos h2]
      exact hs
    · show b.index + (j - b.index) = j
      omega
    · show (b.setVelocity 1).velocity = _
      rw [if_neg (by omega : ¬ j < b.index), if_pos hj]
      simpa using setVelocity_velocity_int b 1 hd

/-- Witness for C4 at a concrete input. -/
theorem c4_target_step_exact_witness :
    (0 : ℤ) < 3 ∧ ([0, 1, 2] : List ℕ) ≠ [] ∧
    (init (α := ℕ) ⟨[0, 1, 2], 3⟩ ⟨[0, 1, 2], 3⟩).buffer_backward ≠ [] ∧
    (∃ b' s, (init (α := ℕ) ⟨[0, 1, 2], 3⟩ ⟨[0, 1, 2], 3⟩).step (some 5) = .ok (b', s) ∧
      b'.index = 5 ∧
      b'.velocity = (if (5 : ℤ) < (init (α := ℕ) ⟨[0, 1, 2], 3⟩ ⟨[0, 1, 2], 3⟩).index
        then (-1 : ℚ)
        else if (init (α := ℕ) ⟨[0, 1, 2], 3⟩ ⟨[0, 1, 2], 3⟩).index < 5 then 1 else 0) ∧
      b'.buffer_forward = dequeRotate
        (init (α := ℕ) ⟨[0, 1, 2], 3⟩ ⟨[0, 1, 2], 3⟩).buffer_forward
        (-(5 - (init (α := ℕ) ⟨[0, 1, 2], 3⟩ ⟨[0, 1, 2], 3⟩).index)) ∧
      b'.buffer_backward = dequeRotate
        (init (α := ℕ) ⟨[0, 1, 2], 3⟩ ⟨[0, 1, 2], 3⟩).buffer_backward
        (-(5 - (init (α := ℕ) ⟨[0, 1, 2], 3⟩ ⟨[0, 1, 2], 3⟩).index))) :=
  ⟨by decide, by decide, by decide,
    c4_target_step_exact (init ⟨[0, 1, 2], 3⟩ ⟨[0, 1, 2], 3⟩) 5
      (by decide) (by decide) (by decide)⟩

/-- C3 (counterexample): the `state` property — the head read used to seed the
output sequence — ignores the velocity: after `set_velocity(-1)` from the
initial state the direction flag is still Forward while the velocity is
negative, and `state` returns the FORWARD head 0, not the backward head 100
that the claimed tie-break (`Forward ∧ velocity ≥ 0` or `Backward ∧
velocity > 0`, otherwise backward) would demand. -/
theorem c3_counterexample_state_ignores_velocity :
    ((init (α := ℕ) ⟨[0], 6⟩ ⟨[100], 6⟩).setVelocity (-1)).forward = true ∧
    ((init (α := ℕ) ⟨[0], 6⟩ ⟨[100], 6⟩).setVelocity (-1)).velocity < 0 ∧
    ((init (α := ℕ) ⟨[0], 6⟩ ⟨[100], 6⟩).setVelocity (-1)).state = some 0 ∧
    ((init (α := ℕ) ⟨[0], 6⟩ ⟨[100], 6⟩).setVelocity (-1)).buffer_backward.head?
      = some 100 ∧
    ((init (α := ℕ) ⟨[0], 6⟩ ⟨[100], 6⟩).setVelocity (-1)).state ≠
      ((init (α := ℕ) ⟨[0], 6⟩ ⟨[100], 6⟩).setVelocity (-1)).buffer_backward.head? := by
  have hv : ((init (α := ℕ) ⟨[0], 6⟩ ⟨[100], 6⟩).setVelocity (-1)).velocity = -1 := by
    simpa using setVelocity_velocity_int (init (α := ℕ) ⟨[0], 6⟩ ⟨[100], 6⟩) (-1) (by decide)
  have h1 : (init (α := ℕ) ⟨[0], 6⟩ ⟨[100], 6⟩).velocity = 1 := by
    simpa using velocity_eq_int (init (α := ℕ) ⟨[0], 6⟩ ⟨[100], 6⟩) 1 (by decide) (by decide)
  have hfwd : ((init (α := ℕ) ⟨[0], 6⟩ ⟨[100], 6⟩).setVelocity (-1)).forward = true := by
    simp only [setVelocity]
    norm_num [h1, show (init (α := ℕ) ⟨[0], 6⟩ ⟨[100], 6⟩).forward = true from rfl]
  have hstate : ((init (α := ℕ) ⟨[0], 6⟩ ⟨[100], 6⟩).setVelocity (-1)).state = some 0 := by
    unfold state
    rw [hfwd]
    rfl
  have hbwd : ((init (α := ℕ) ⟨[0], 6⟩ ⟨[100], 6⟩).setVelocity (-1)).buffer_backward.head?
      = some 100 := rfl
  refine ⟨hfwd, by rw [hv]; norm_num, hstate, hbwd, ?_⟩
  rw [hstate, hbwd]
  simp

/-- C3 (amended): the asymmetric `≥`/`>` tie-break governs the head that
`step` RETURNS — the returned slice is the post-rotation forward head iff
(Forward ∧ velocity ≥ 0) ∨ (Backward ∧ velocity > 0), and the backward head
otherwise — while the `state` property reads only the queue selected by the
direction flag, ignoring the velocity. -/
theorem c3_amended_step_head_tiebreak {α : Type}
    (b b' : VideoSliceBufferReversible α) (t : ℤ) (s : α)
    (h : b.step (some t) = .ok (b', s)) :
    (b.state = if b.forward then b.buffer_forward.head? else b.buffer_backward.head?) ∧
    (((b'.forward = true ∧ 0 ≤ b'.velocity) ∨ (b'.forward = false ∧ 0 < b'.velocity)) →
        b'.buffer_forward.head? = some s) ∧
    (¬((b'.forward = true ∧ 0 ≤ b'.velocity) ∨ (b'.forward = false ∧ 0 < b'.velocity)) →
        b'.buffer_backward.head? = some s) := by
  have hstep0 : b.step (some t) =
      (if t - b.index < 0 then b.setVelocity (-1)
       else if 0 < t - b.index then b.setVelocity 1
       else b.setVelocity 0).stepTail (t - b.index) := rfl
  rw [hstep0] at h
  obtain ⟨-, hchoose⟩ := stepTail_ok_inv _ b' _ s h
  obtain ⟨hfwd, hbwd⟩ := chooseHead_cases b'
  exact ⟨rfl,
    fun hc => by rw [← hfwd hc]; exact hchoose,
    fun hc => by rw [← hbwd hc]; exact hchoose⟩

/-- Witness for C3 (amended) at a concrete input: `step(to = 1)` on a fresh
two-slice sequencer. -/
theorem c3_amended_step_head_tiebreak_witness :
    ((init (α := ℕ) ⟨[5, 6], 2⟩ ⟨[7, 8], 2⟩).state =
      if (init (α := ℕ) ⟨[5, 6], 2⟩ ⟨[7, 8], 2⟩).forward
      then (init (α := ℕ) ⟨[5, 6], 2⟩ ⟨[7, 8], 2⟩).buffer_forward.head?
      else (init (α := ℕ) ⟨[5, 6], 2⟩ ⟨[7, 8], 2⟩).buffer_backward.head?) ∧
    ((((⟨[6, 5], [7, 8], true, 1, 2, 2⟩ : VideoSliceBufferReversible ℕ).forward = true ∧
        0 ≤ (⟨[6, 5], [7, 8], true, 1, 2, 2⟩ : VideoSliceBufferReversible ℕ).velocity) ∨
      ((⟨[6, 5], [7, 8], true, 1, 2, 2⟩ : VideoSliceBufferReversible ℕ).forward = false ∧
        0 < (⟨[6, 5], [7, 8], true, 1, 2, 2⟩ : VideoSliceBufferReversible ℕ).velocity)) →
        ([6, 5] : List ℕ).head? = some 6) ∧
    (¬(((⟨[6, 5], [7, 8], true, 1, 2, 2⟩ : VideoSliceBufferReversible ℕ).forward = true ∧
        0 ≤ (⟨[6, 5], [7, 8], true, 1, 2, 2⟩ : VideoSliceBufferReversible ℕ).velocity) ∨
      ((⟨[6, 5], [7, 8], true, 1, 2, 2⟩ : VideoSliceBufferReversible ℕ).forward = false ∧
        0 < (⟨[6, 5], [7, 8], true, 1, 2, 2⟩ : VideoSliceBufferReversible ℕ).velocity)) →
        ([7, 8] : List ℕ).head? = some 6) :=
  c3_amended_step_head_tiebreak (init ⟨[5, 6], 2⟩ ⟨[7, 8], 2⟩)
    ⟨[6, 5], [7, 8], true, 1, 2, 2⟩ 1 6 (by
      norm_num [step, stepTail, setVelocity, chooseHead, rotatedBy, velocity, init,
        dequeRotate, pyInt, List.rotate])

/-- C6 (counterexample): an unrecognized waveform name fails with
`NotImplementedError` (`"can't parse category {category} yet"`), not with the
`UnsupportedWaveformError` the specification names. -/
theorem c6_counterexample_not_implemented :
    generate_timeline_function 6 10 5 "triangle" 1 (fun _ => 0)
      = .error .notImplementedError ∧
    generate_timeline_function 6 10 5 "triangle" 1 (fun _ => 0)
      ≠ .error .unsupportedWaveformError := by
  have h1 : generate_timeline_function 6 10 5 "triangle" 1 (fun _ => 0)
      = .error .notImplementedError := by
    unfold generate_timeline_function
    rw [if_neg (by decide), if_neg (by decide)]
  exact ⟨h1, by rw [h1]; decide⟩

/-- C6 (amended): calling the timeline generator with a waveform name other
than "sinusoid" or "compound-sinusoid" fails with `NotImplementedError`. -/
theorem c6_amended_unknown_category {sfs len : ℤ} {n : ℕ} {freq : ℚ} {s : ℕ → ℚ}
    (category : String)
    (h₁ : category ≠ "sinusoid") (h₂ : category ≠ "compound-sinusoid") :
    generate_timeline_function sfs len n category freq s
      = .error .notImplementedError := by
  unfold generate_timeline_function
  rw [if_neg h₁, if_neg h₂]

/-- Witness for C6 (amended) at a concrete input. -/
theorem c6_amended_unknown_category_witness :
    ("triangle" ≠ "sinusoid") ∧ ("triangle" ≠ "compound-sinusoid") ∧
    generate_timeline_function 6 10 5 "triangle" 1 (fun _ => 0)
      = .error .notImplementedError :=
  ⟨by decide, by decide, c6_amended_unknown_category "triangle" (by decide) (by decide)⟩

/-- C7: every target index the timeline generator produces for waveform
"sinusoid" lies in [0, buffer_length − 1], and for "compound-sinusoid" in
[0, buffer_length]: negative samples are mirrored to their negation and each
scaled sample is truncated (not rounded) toward zero, which keeps it inside
the scaled band.  The `np.sin(np.linspace(...))` samples are abstracted as an
arbitrary rational sequence `s` bounded by 1 in absolute value. -/
theorem c7_timeline_bounds (sfs len : ℤ) (n : ℕ) (freq : ℚ) (s : ℕ → ℚ)
    (hlen : 1 ≤ len) (hs : ∀ i, |s i| ≤ 1)
    (l₁ l₂ : List ℤ)
    (h₁ : generate_timeline_function sfs len n "sinusoid" freq s = .ok l₁)
    (h₂ : generate_timeline_function sfs len n "compound-sinusoid" freq s = .ok l₂) :
    (∀ x ∈ l₁, 0 ≤ x ∧ x ≤ len - 1) ∧ (∀ x ∈ l₂, 0 ≤ x ∧ x ≤ len) := by
  have key : ∀ (c : ℚ) (k : ℤ), 0 ≤ c → c ≤ (k : ℚ) → ∀ i : ℕ,
      0 ≤ pyInt (if s i * c < 0 then -(s i * c) else s i * c) ∧
      pyInt (if s i * c < 0 then -(s i * c) else s i * c) ≤ k := by
    intro c k hc hck i
    have habs : (if s i * c < 0 then -(s i * c) else s i * c) = |s i * c| := by
      rcases lt_or_le (s i * c) 0 with h | h
      · rw [if_pos h, abs_of_neg h]
      · rw [if_neg (not_lt.mpr h), abs_of_nonneg h]
    rw [habs]
    refine pyInt_nonneg_le (abs_nonneg _) ?_
    calc |s i * c| = |s i| * |c| := abs_mul _ _
      _ ≤ 1 * |c| := mul_le_mul_of_nonneg_right (hs i) (abs_nonneg c)
      _ = c := by rw [one_mul, abs_of_nonneg hc]
      _ ≤ (k : ℚ) := hck
  have e₁ : ((List.range n).map (fun i =>
      pyInt (if s i * ((len : ℚ) - 1) < 0 then -(s i * ((len : ℚ) - 1))
        else s i * ((len : ℚ) - 1)))) = l₁ := by
    have h := h₁
    unfold generate_timeline_function at h
    rw [if_pos rfl] at h
    injection h
  have e₂ : ((List.range n).map (fun i =>
      pyInt (if s i * (len : ℚ) < 0 then -(s i * (len : ℚ))
        else s i * (len : ℚ)))) = l₂ := by
    have h := h₂
    unfold generate_timeline_function at h
    rw [if_neg (by decide), if_pos rfl] at h
    injection h
  constructor
  · intro x hx
    rw [← e₁] at hx
    obtain ⟨i, -, rfl⟩ := List.mem_map.mp hx
    exact key ((len : ℚ) - 1) (len - 1)
      (by linarith [(show (1 : ℚ) ≤ (len : ℚ) by exact_mod_cast hlen)])
      (by push_cast; linarith) i
  · intro x hx
    rw [← e₂] at hx
    obtain ⟨i, -, rfl⟩ := List.mem_map.mp hx
    exact key (len : ℚ) len
      (by exact_mod_cast le_trans zero_le_one hlen)
      (by linarith) i

/-- Witness for C7 at a concrete input: three slices, two points, constant
half-amplitude samples. -/
theorem c7_timeline_bounds_witness :
    (1 : ℤ) ≤ 3 ∧ (∀ i : ℕ, |(fun _ : ℕ => (1 / 2 : ℚ)) i| ≤ 1) ∧
    (∀ x ∈ ([1, 1] : List ℤ), 0 ≤ x ∧ x ≤ 3 - 1) ∧
    (∀ x ∈ ([1, 1] : List ℤ), 0 ≤ x ∧ x ≤ 3) := by
  have hEq1 : generate_timeline_function 6 3 2 "sinusoid" 1 (fun _ => (1 / 2 : ℚ))
      = .ok [1, 1] := by
    norm_num [generate_timeline_function, pyInt, List.range_succ]
  have hEq2 : generate_timeline_function 6 3 2 "compound-sinusoid" 1 (fun _ => (1 / 2 : ℚ))
      = .ok [1, 1] := by
    norm_num [generate_timeline_function, pyInt, List.range_succ]
  have h := c7_timeline_bounds 6 3 2 1 (fun _ => 1 / 2) (by norm_num)
    (fun i => by rw [abs_le]; constructor <;> norm_num) [1, 1] [1, 1] hEq1 hEq2
  exact ⟨by norm_num, fun i => by rw [abs_le]; constructor <;> norm_num, h.1, h.2⟩

/-- After appending a compression record for a fingerprint that was absent,
looking that fingerprint up returns the new record. -/
theorem get_compression_append_self (m : Manifest) (c : SingleVideoCompression)
    (r : CompressionRecord) (h : get_compression m c = none) :
    get_compression (add_compression m c r) c = some r := by
  unfold get_compression at h ⊢
  unfold add_compression
  rw [Option.map_eq_none'] at h
  rw [List.find?_append, h, Option.none_or]
  simp [List.find?]

/-- After appending a slice record for a key that was absent, looking that key
up returns the new record. -/
theorem get_slices_append_self (m : Manifest) (c : SingleVideoCompression)
    (sfs : ℤ) (sl : List String) (h : get_slices m c sfs = none) :
    get_slices (add_slices m c sfs sl) c sfs = some sl := by
  unfold get_slices at h ⊢
  unfold add_slices
  rw [Option.map_eq_none'] at h
  rw [List.find?_append, h, Option.none_or]
  simp [List.find?]

/-- C8: each get-or-create wrapper (`compress` for transcodes, `slice` for
slice sets) invokes its expensive producer at most once across two calls with
the same configuration: a hit uses the cached record without invoking the
producer, a miss runs it once and appends the record, and the second call's
result equals the first's. -/
theorem c8_cache_at_most_once
    (transcode : SingleVideoCompression → CompressionRecord)
    (sliceVideo : SingleVideoCompression → ℤ → List String)
    (m : Manifest) (c : SingleVideoCompression) (sfs : ℤ)
    (r₁ r₂ : CompressionRecord) (m₁ m₂ : Manifest) (k₁ k₂ : ℕ)
    (s₁ s₂ : List String) (ms₁ ms₂ : Manifest) (j₁ j₂ : ℕ)
    (h₁ : compress transcode m c = (r₁, m₁, k₁))
    (h₂ : compress transcode m₁ c = (r₂, m₂, k₂))
    (hs₁ : sliceCached sliceVideo m c sfs = (s₁, ms₁, j₁))
    (hs₂ : sliceCached sliceVideo ms₁ c sfs = (s₂, ms₂, j₂)) :
    (k₁ + k₂ ≤ 1 ∧ r₂ = r₁) ∧ (j₁ + j₂ ≤ 1 ∧ s₂ = s₁) := by
  constructor
  · rcases hg : get_compression m c with _ | r
    · unfold compress at h₁
      rw [hg] at h₁
      injection h₁ with e₁ h₁'
      injection h₁' with e₂ e₃
      have hg₂ : get_compression m₁ c = some (transcode c) := by
        rw [← e₂]
        exact get_compression_append_self m c (transcode c) hg
      unfold compress at h₂
      rw [hg₂] at h₂
      injection h₂ with f₁ h₂'
      injection h₂' with f₂ f₃
      constructor
      · omega
      · rw [← f₁, ← e₁]
    · unfold compress at h₁
      rw [hg] at h₁
      injection h₁ with e₁ h₁'
      injection h₁' with e₂ e₃
      unfold compress at h₂
      rw [← e₂, hg] at h₂
      injection h₂ with f₁ h₂'
      injection h₂' with f₂ f₃
      constructor
      · omega
      · rw [← f₁, ← e₁]
  · rcases hg : get_slices m c sfs with _ | r
    · unfold sliceCached at hs₁
      rw [hg] at hs₁
      injection hs₁ with e₁ hs₁'
      injection hs₁' with e₂ e₃
      have hg₂ : get_slices ms₁ c sfs = some (sliceVideo c sfs) := by
        rw [← e₂]
        exact get_slices_append_self m c sfs (sliceVideo c sfs) hg
      unfold sliceCached at hs₂
      rw [hg₂] at hs₂
      injection hs₂ with f₁ hs₂'
      injection hs₂' with f₂ f₃
      constructor
      · omega
      · rw [← f₁, ← e₁]
    · unfold sliceCached at hs₁
      rw [hg] at hs₁
      injection hs₁ with e₁ hs₁'
      injection hs₁' with e₂ e₃
      unfold sliceCached at hs₂
      rw [← e₂, hg] at hs₂
      injection hs₂ with f₁ hs₂'
      injection hs₂' with f₂ f₃
      constructor
      · omega
      · rw [← f₁, ← e₁]

/-- Witness for C8 at a concrete input: an empty manifest, one configuration,
two `compress` calls and two `slice` calls. -/
theorem c8_cache_at_most_once_witness :
    ((1 : ℕ) + 0 ≤ 1 ∧ (⟨"out.avi"⟩ : CompressionRecord) = ⟨"out.avi"⟩) ∧
    ((1 : ℕ) + 0 ≤ 1 ∧ (["s0"] : List String) = ["s0"]) :=
  c8_cache_at_most_once (fun _ => ⟨"out.avi"⟩) (fun _ _ => ["s0"])
    ⟨[], []⟩ ⟨"in.mov", 6000, "h264", []⟩ 6
    ⟨"out.avi"⟩ ⟨"out.avi"⟩
    ⟨[(⟨"in.mov", 6000, "h264", []⟩, ⟨"out.avi"⟩)], []⟩
    ⟨[(⟨"in.mov", 6000, "h264", []⟩, ⟨"out.avi"⟩)], []⟩ 1 0
    ["s0"] ["s0"]
    ⟨[], [((⟨"in.mov", 6000, "h264", []⟩, 6), ["s0"])]⟩
    ⟨[], [((⟨"in.mov", 6000, "h264", []⟩, 6), ["s0"])]⟩ 1 0
    (by decide) (by decide) (by decide) (by decide)

/-- Setting a key always makes a later get of that key return the new value. -/
theorem dictGet_dictSet_self {β : Type} (d : List (String × β)) (k : String) (v : β) :
    dictGet (dictSet d k v) k = some v := by
  induction d with
  | nil => simp [dictGet, dictSet, List.find?]
  | cons p rest ih =>
      unfold dictSet
      by_cases hp : p.1 == k
      · rw [if_pos hp]
        simp [dictGet, List.find?]
      · rw [if_neg hp]
        unfold dictGet at ih ⊢
        rw [List.find?]
        simp only [hp]
        exact ih

/-- Re-setting a key to the value it already has is the identity. -/
theorem dictSet_dictSet_same {β : Type} (d : List (String × β)) (k : String) (v : β) :
    dictSet (dictSet d k v) k v = dictSet d k v := by
  induction d with
  | nil => simp [dictSet]
  | cons p rest ih =>
      by_cases hp : p.1 == k
      · simp [dictSet, hp]
      · simp [dictSet, hp, ih]

/-- A successful pass over the flat override list applies exactly the override
pairs, left to right, by dict assignment. -/
theorem applyConfigPairs_ok : ∀ (u : List String) (cfg cfg' : List (String × String)),
    applyConfigPairs cfg u = (cfg', none) →
    cfg' = (overridePairs u).foldl (fun c p => dictSet c p.1 p.2) cfg
  | [] => by
      intro cfg cfg' h
      unfold applyConfigPairs at h
      injection h with h1 _
      simp [overridePairs, h1]
  | [k] => by
      intro cfg cfg' h
      unfold applyConfigPairs at h
      injection h with _ h2
      exact Option.noConfusion h2
  | k :: v :: rest => by
      intro cfg cfg' h
      unfold applyConfigPairs at h
      split at h
      · have ih := applyConfigPairs_ok rest (dictSet cfg k v) cfg' h
        simpa [overridePairs] using ih
      · injection h with _ h2
        exact Option.noConfusion h2

/-- C10: `construct_encoder_config` mutates the shared default option mapping
for the selected encoder in place: after a successful call with overrides, a
later call for the same encoder with an empty override list returns exactly
the previously mutated mapping (the defaults with the earlier overrides
applied by dict assignment), not the original defaults. -/
theorem c10_construct_encoder_config_mutates_defaults
    (options : List (String × List (String × String)))
    (encoder : String) (user_specified_config : List String)
    (cfg₁ : List (String × String))
    (options₁ : List (String × List (String × String)))
    (h : construct_encoder_config options encoder user_specified_config
      = (.ok cfg₁, options₁)) :
    construct_encoder_config options₁ encoder [] = (.ok cfg₁, options₁) ∧
    dictGet options₁ encoder = some cfg₁ ∧
    ∃ cfg₀, dictGet options encoder = some cfg₀ ∧
      cfg₁ = (overridePairs user_specified_config).foldl
        (fun c p => dictSet c p.1 p.2) cfg₀ := by
  unfold construct_encoder_config at h
  rcases hg : dictGet options encoder with _ | cfg₀ <;> rw [hg] at h
  · injection h with h1 _
    exact Except.noConfusion h1
  · rcases hap : applyConfigPairs cfg₀ user_specified_config with ⟨cfg', err?⟩
    rcases err? with _ | e
    · simp only [hap] at h
      injection h with h1 h2
      injection h1 with h1
      subst h1
      subst h2
      refine ⟨?_, dictGet_dictSet_self options encoder cfg',
        cfg₀, rfl, applyConfigPairs_ok user_specified_config cfg₀ cfg' hap⟩
      unfold construct_encoder_config
      rw [dictGet_dictSet_self options encoder cfg']
      show (Except.ok cfg', dictSet (dictSet options encoder cfg') encoder cfg')
        = (Except.ok cfg', dictSet options encoder cfg')
      rw [dictSet_dictSet_same]
    · simp only [hap] at h
      injection h with h1 _
      exact Except.noConfusion h1

/-- Witness for C10 at a concrete input: overriding `crf` for `h264`, then
re-reading the defaults with an empty override list. -/
theorem c10_construct_encoder_config_mutates_defaults_witness :
    construct_encoder_config [("h264", [("preset", "medium"), ("crf", "30")])] "h264" []
      = (.ok [("preset", "medium"), ("crf", "30")],
         [("h264", [("preset", "medium"), ("crf", "30")])]) ∧
    dictGet [("h264", [("preset", "medium"), ("crf", "30")])] "h264"
      = some [("preset", "medium"), ("crf", "30")] ∧
    ∃ cfg₀,
      dictGet [("h264", [("preset", "medium"), ("crf", "23")])] "h264" = some cfg₀ ∧
      [("preset", "medium"), ("crf", "30")]
        = (overridePairs ["crf", "30"]).foldl (fun c p => dictSet c p.1 p.2) cfg₀ :=
  c10_construct_encoder_config_mutates_defaults
    [("h264", [("preset", "medium"), ("crf", "23")])] "h264" ["crf", "30"]
    [("preset", "medium"), ("crf", "30")]
    [("h264", [("preset", "medium"), ("crf", "30")])]
    (by decide)

/-- Witness for C9 at a concrete input. -/
theorem c9_initial_state_witness :
    (0 : ℤ) < 2 ∧
    ((init (α := ℕ) ⟨[3, 4], 2⟩ ⟨[5, 6], 2⟩).forward = true ∧
     (init (α := ℕ) ⟨[3, 4], 2⟩ ⟨[5, 6], 2⟩).index = 0 ∧
     (init (α := ℕ) ⟨[3, 4], 2⟩ ⟨[5, 6], 2⟩).velocity = 1 ∧
     (init (α := ℕ) ⟨[3, 4], 2⟩ ⟨[5, 6], 2⟩)._velocity_numerator = 2 ∧
     (init (α := ℕ) ⟨[3, 4], 2⟩ ⟨[5, 6], 2⟩)._velocity_denominator = 2 ∧
     (init (α := ℕ) ⟨[3, 4], 2⟩ ⟨[5, 6], 2⟩).state = ([3, 4] : List ℕ).head? ∧
     (init (α := ℕ) ⟨[3, 4], 2⟩ ⟨[5, 6], 2⟩).step none = .error .attributeError) :=
  ⟨by decide, c9_initial_state ⟨[3, 4], 2⟩ ⟨[5, 6], 2⟩ (by decide)⟩

end Compressure
